import Mathlib

/-!
Verification development for the generation/mutation tracking core of
GNUnet's set service (`src/set/gnunet-service-set.c`).

The definitions below are a shallow embedding of the C source:

* `GenerationRange`, `MutationEvent`, `ElementEntry` embed the structs used
  by the generation bookkeeping.
* `is_excluded_generation` embeds the function of the same name
  (gnunet-service-set.c, lines 323-337).
* `is_element_of_generation` embeds lines 340-394.  The C function can
  terminate the process via `GNUNET_assert (0)` and can flag a caller error
  via `GNUNET_break (0)` followed by `return GNUNET_NO`; the result type
  `MembershipOutcome` keeps the three outcomes apart: a normal return
  (`ok`), the non-fatal break that returns `GNUNET_NO` to the caller
  (`brokenNo`), and a fatal assertion (`assertionFailure`).
* `advance_generation` embeds lines 1283-1306.
* `execute_add` / `execute_remove` / `execute_mutation` /
  `handle_client_mutation` embed lines 817-937 and 1238-1274; pending
  mutations are prepended (the C code queues them with
  `GNUNET_CONTAINER_DLL_insert`, which inserts at the list head) and the
  flush in `send_client_element` (lines 982-999) pops from the head.
* `create_operation` embeds the generation pinning done by
  `handle_client_evaluate` (lines 1346-1357) and `handle_client_accept`
  (lines 1697-1700): the operation records `generation_created` and then
  `advance_generation` runs.
* `collect_generation_garbage` / `garbage_collect_cb` embed lines 240-321;
  note that the whole pruning body of `garbage_collect_cb` is commented out
  in the source, so the callback only returns `GNUNET_OK`.
* The `ServiceState` model embeds the client-facing bookkeeping of
  `handle_client_create_set` (lines 1080-1133), `handle_client_disconnect`
  (lines 610-635), `set_destroy` (lines 513-601),
  `handle_client_copy_lazy_prepare` (lines 1428-1469) and
  `handle_client_copy_lazy_connect` (lines 1480-1574).  Client handles,
  message queues, listeners and the cadet channels are not part of the
  claims and are not modelled; the union/intersection vtables live in files
  that are not part of this tree, so the `copy_state` hook is represented
  only by its effect on the generation state.

Fallible C code (fatal `GNUNET_assert`, client disconnects on protocol
violations) is modelled with `Option`: `none` means the C execution does
not return normally to the event loop with a live client/set.
-/

set_option maxRecDepth 10000

namespace GSS

/-- Embeds `struct GenerationRange` (gnunet-service-set.h): a half-open
exclusion window `[start, end)`.  The C field `end` is a Lean keyword and is
rendered `end_`. -/
structure GenerationRange where
  start : Nat
  end_ : Nat
deriving DecidableEq

/-- Embeds `struct MutationEvent`: at `generation` the element was added
(`added = true`) or removed (`added = false`). -/
structure MutationEvent where
  generation : Nat
  added : Bool
deriving DecidableEq

/-- Embeds the mutation history of `struct ElementEntry`.  The element bytes
and type tag are irrelevant to every claim (elements are identified by their
hash key in the content map) and are not carried. -/
structure ElementEntry where
  mutations : List MutationEvent
deriving DecidableEq

/-- Embeds `is_excluded_generation` (lines 323-337): `GNUNET_YES` iff some
range satisfies `start <= generation < end`. -/
def is_excluded_generation (generation : Nat) (excluded : List GenerationRange) : Bool :=
  excluded.any (fun r => decide (r.start ≤ generation) && decide (generation < r.end_))

/-- Result of `is_element_of_generation`.  `ok b` is a normal return of
`GNUNET_YES`/`GNUNET_NO`; `brokenNo` is the `GNUNET_break (0); return
GNUNET_NO;` path (non-fatal, the caller receives `GNUNET_NO`);
`assertionFailure` is `GNUNET_assert (0)` (the process aborts). -/
inductive MembershipOutcome where
  | ok (member : Bool)
  | brokenNo
  | assertionFailure
deriving DecidableEq

/-- The value an `is_element_of_generation` caller observes: `none` when the
call never returns (fatal assertion), otherwise the returned boolean. -/
def membershipReturn : MembershipOutcome → Option Bool
  | .ok b => some b
  | .brokenNo => some false
  | .assertionFailure => none

/-- Embeds the scan loop of `is_element_of_generation` (lines 358-391):
walk the insertion-ordered mutation list with accumulator `is_present`,
skipping mutations beyond the query generation or inside an exclusion
range; two applicable mutations in the same direction hit
`GNUNET_assert (0)`. -/
def mutation_scan (query_generation : Nat) (excluded : List GenerationRange) :
    Bool → List MutationEvent → MembershipOutcome
  | is_present, [] => .ok is_present
  | is_present, m :: rest =>
    if query_generation < m.generation then
      mutation_scan query_generation excluded is_present rest
    else if is_excluded_generation m.generation excluded then
      mutation_scan query_generation excluded is_present rest
    else if is_present && m.added then .assertionFailure
    else if !is_present && !m.added then .assertionFailure
    else mutation_scan query_generation excluded m.added rest

/-- Embeds `is_element_of_generation` (lines 340-394).  The entry assertion
`GNUNET_assert (NULL != ee->mutations)` aborts on an empty history; a query
generation inside an exclusion range takes the `GNUNET_break (0); return
GNUNET_NO;` path; otherwise the mutation list is scanned. -/
def is_element_of_generation (ee : ElementEntry) (query_generation : Nat)
    (excluded : List GenerationRange) : MembershipOutcome :=
  if ee.mutations = [] then .assertionFailure
  else if is_excluded_generation query_generation excluded then .brokenNo
  else mutation_scan query_generation excluded false ee.mutations

/-- Embeds `struct Operation` restricted to the field the claims are about:
`generation_created`, the set generation the operation is pinned to. -/
structure Operation where
  generation_created : Nat
deriving DecidableEq

/-- Embeds `struct Set` restricted to the generation bookkeeping:
`current_generation`, `excluded_generations`, `iter_generation`, whether a
client iteration is in progress (`set->iter != NULL`), and the list of
operations bound to the set (`ops_head`). -/
structure Set where
  current_generation : Nat
  excluded_generations : List GenerationRange
  iter_generation : Nat
  iterating : Bool
  ops : List Operation
deriving DecidableEq

/-- A queued client mutation request (`struct PendingMutation` message):
either a `GNUNET_MESSAGE_TYPE_SET_ADD` or a `..._SET_REMOVE` for the element
with the given hash. -/
inductive MutationRequest where
  | add (h : Nat)
  | remove (h : Nat)
deriving DecidableEq

/-- Embeds `struct SetContent`: the store's `latest_generation`, the element
map (hash, entry), the count of active iterators, and the deferred mutation
list (head of the doubly linked list first). -/
structure SetContent where
  latest_generation : Nat
  elements : List (Nat × ElementEntry)
  iterator_count : Nat
  pending_mutations : List MutationRequest
deriving DecidableEq

/-- A set together with its content store; the single-set view of the
service state used by the mutation/generation claims. -/
structure World where
  set : Set
  content : SetContent
deriving DecidableEq

/-- Embeds `_GSS_is_element_of_set` (lines 397-405). -/
def _GSS_is_element_of_set (ee : ElementEntry) (set : Set) : MembershipOutcome :=
  is_element_of_generation ee set.current_generation set.excluded_generations

/-- Embeds `is_element_of_iteration` (lines 408-416). -/
def is_element_of_iteration (ee : ElementEntry) (set : Set) : MembershipOutcome :=
  is_element_of_generation ee set.iter_generation set.excluded_generations

/-- Embeds `_GSS_is_element_of_operation` (lines 419-427): the element is
tested at the operation's pinned `generation_created` against the bound
set's current exclusion ranges. -/
def _GSS_is_element_of_operation (ee : ElementEntry) (op : Operation) (set : Set) :
    MembershipOutcome :=
  is_element_of_generation ee op.generation_created set.excluded_generations

/-- `GNUNET_CONTAINER_multihashmap_get` on the content's element map. -/
def lookupElement : List (Nat × ElementEntry) → Nat → Option ElementEntry
  | [], _ => none
  | kv :: rest, k => if kv.1 = k then some kv.2 else lookupElement rest k

/-- Replace the entry stored under key `k` (mutating `ee->mutations` through
the pointer obtained from the map). -/
def updateElement : List (Nat × ElementEntry) → Nat → ElementEntry → List (Nat × ElementEntry)
  | [], _, _ => []
  | kv :: rest, k, ee => if kv.1 = k then (kv.1, ee) :: rest else kv :: updateElement rest k ee

/-- `GNUNET_CONTAINER_multihashmap_put` of a fresh entry. -/
def insertElement (es : List (Nat × ElementEntry)) (k : Nat) (ee : ElementEntry) :
    List (Nat × ElementEntry) :=
  es ++ [(k, ee)]

/-- Embeds `advance_generation` (lines 1283-1306) on a set and its content
store's `latest_generation`.  Fast path: set is current with the store, both
counters advance by one.  Slow path (set strictly behind): exclusion range
`[current+1, latest+1)` is appended and both counters jump to `latest+1`.
A set ahead of the store hits `GNUNET_assert` (`none`). -/
def advance_generation (set : Set) (latest_generation : Nat) : Option (Set × Nat) :=
  if set.current_generation = latest_generation then
    some ({ set with current_generation := set.current_generation + 1 }, latest_generation + 1)
  else if set.current_generation < latest_generation then
    some ({ set with
              current_generation := latest_generation + 1,
              excluded_generations :=
                set.excluded_generations ++
                  [⟨set.current_generation + 1, latest_generation + 1⟩] },
          latest_generation + 1)
  else none

/-- Embeds `execute_add` (lines 817-875): unseen elements are inserted with
a single add event at the current generation; an element that is already a
live member of the set is a no-op; otherwise an add event at the current
generation is appended.  (`set->vt->add` maintains operation-type indexes
and has no effect on the modelled state.) -/
def execute_add (set : Set) (content : SetContent) (h : Nat) : Option SetContent :=
  match lookupElement content.elements h with
  | none =>
      some { content with
               elements := insertElement content.elements h ⟨[⟨set.current_generation, true⟩]⟩ }
  | some ee =>
      match membershipReturn (_GSS_is_element_of_set ee set) with
      | none => none
      | some true => some content
      | some false =>
          some { content with
                   elements := updateElement content.elements h
                     ⟨ee.mutations ++ [⟨set.current_generation, true⟩]⟩ }

/-- Embeds `execute_remove` (lines 878-918): removing an unknown element or
one that is not currently a member is a no-op; otherwise a remove event at
the current generation is appended. -/
def execute_remove (set : Set) (content : SetContent) (h : Nat) : Option SetContent :=
  match lookupElement content.elements h with
  | none => some content
  | some ee =>
      match membershipReturn (_GSS_is_element_of_set ee set) with
      | none => none
      | some false => some content
      | some true =>
          some { content with
                   elements := updateElement content.elements h
                     ⟨ee.mutations ++ [⟨set.current_generation, false⟩]⟩ }

/-- Embeds `execute_mutation` (lines 922-937): dispatch on the message
type. -/
def execute_mutation (w : World) (m : MutationRequest) : Option World :=
  match m with
  | .add h =>
      match execute_add w.set w.content h with
      | none => none
      | some c => some { w with content := c }
  | .remove h =>
      match execute_remove w.set w.content h with
      | none => none
      | some c => some { w with content := c }

/-- Execute a list of mutation requests in list order. -/
def execute_mutations (w : World) : List MutationRequest → Option World
  | [] => some w
  | m :: rest =>
      match execute_mutation w m with
      | none => none
      | some w2 => execute_mutations w2 rest

/-- Embeds `handle_client_mutation` (lines 1238-1274): while an iteration is
active the request is queued at the head of the pending list
(`GNUNET_CONTAINER_DLL_insert` prepends); otherwise it executes at once. -/
def handle_client_mutation (w : World) (m : MutationRequest) : Option World :=
  if w.content.iterator_count ≠ 0 then
    some { w with content :=
             { w.content with pending_mutations := m :: w.content.pending_mutations } }
  else
    execute_mutation w m

/-- Embeds the pending-mutation flush of `send_client_element`
(lines 982-999): once the last iterator is gone, repeatedly pop the HEAD of
the pending list and execute it. -/
def flush_if_idle (w : World) : Option World :=
  if w.content.iterator_count = 0 then
    execute_mutations
      { w with content := { w.content with pending_mutations := [] } }
      w.content.pending_mutations
  else some w

/-- Embeds the generation pinning performed when an operation starts, in
`handle_client_evaluate` (lines 1346-1357) and `handle_client_accept`
(lines 1685-1700): the new operation records `generation_created :=
set->current_generation` and then `advance_generation` runs so that later
mutations cannot interfere with the running operation. -/
def create_operation (w : World) : Option World :=
  match advance_generation w.set w.content.latest_generation with
  | none => none
  | some (s, latest) =>
      some { set := { s with ops := ⟨w.set.current_generation⟩ :: s.ops },
             content := { w.content with latest_generation := latest } }

/-- The service events acting on one set, as listed by the spec: client
mutations, Evaluate, Accept, a client iteration starting
(`handle_client_iterate`, lines 1035-1068) and running to completion
(`send_client_element` reaching `ITER_DONE`), lazy-copy ticket creation, and
a lazy copy being connected from this set (which advances the shared
store's `latest_generation` through the fork's `advance_generation`). -/
inductive Event where
  | clientMutation (m : MutationRequest)
  | clientEvaluate
  | clientAccept
  | iterStart
  | iterFinish
  | copyLazyPrepare
  | copyLazyConnectFork
deriving DecidableEq

/-- One service event.  `none` models the paths where the C code aborts or
disconnects the client (destroying the set). -/
def applyEvent (w : World) : Event → Option World
  | .clientMutation m => handle_client_mutation w m
  | .clientEvaluate => create_operation w
  | .clientAccept => create_operation w
  | .iterStart =>
      if w.set.iterating then none
      else some { set := { w.set with
                             iterating := true,
                             iter_generation := w.set.current_generation },
                  content := { w.content with
                                 iterator_count := w.content.iterator_count + 1 } }
  | .iterFinish =>
      if !w.set.iterating then none
      else if w.content.iterator_count = 0 then none
      else flush_if_idle
             { set := { w.set with iterating := false },
               content := { w.content with
                              iterator_count := w.content.iterator_count - 1 } }
  | .copyLazyPrepare => some w
  | .copyLazyConnectFork =>
      match advance_generation
              ⟨w.set.current_generation, w.set.excluded_generations, 0, false, []⟩
              w.content.latest_generation with
      | none => none
      | some (_, latest) =>
          some { w with content := { w.content with latest_generation := latest } }

/-- Apply a sequence of service events in order. -/
def applyEvents (w : World) : List Event → Option World
  | [] => some w
  | e :: rest =>
      match applyEvent w e with
      | none => none
      | some w2 => applyEvents w2 rest

/-- Embeds `struct GarbageContext` (lines 242-260). -/
structure GarbageContext where
  min_op_generation : Nat
  max_op_generation : Nat
deriving DecidableEq

/-- Embeds `garbage_collect_cb` (lines 272-292).  The entire pruning body is
commented out in the source; the callback only returns `GNUNET_OK`
(`true` = keep iterating, entry untouched). -/
def garbage_collect_cb (gc : GarbageContext) (key : Nat) (ee : ElementEntry) : Bool :=
  true

/-- Embeds `collect_generation_garbage` (lines 302-321): fold the pending
operations into the min/max generation context (UINT_MAX is the C initial
value of the minimum) and run `garbage_collect_cb` over the element map. -/
def collect_generation_garbage (w : World) : World :=
  let mn := w.set.ops.foldl (fun acc op => Nat.min acc op.generation_created) 4294967295
  let mx := w.set.ops.foldl (fun acc op => Nat.max acc op.generation_created) 0
  let gc : GarbageContext := ⟨mn, mx⟩
  { w with content :=
      { w.content with
          elements := w.content.elements.filter (fun kv => garbage_collect_cb gc kv.1 kv.2) } }

/-- Remove the first occurrence of an operation from the set's list
(`GNUNET_CONTAINER_DLL_remove`). -/
def eraseOp : List Operation → Operation → List Operation
  | [], _ => []
  | o :: rest, op => if o = op then rest else o :: eraseOp rest op

/-- Embeds the state effect of `_GSS_operation_destroy` (lines 439-483):
unlink the operation from its set and, when `gc` is set, run
`collect_generation_garbage`.  (The vtable `cancel` hook and channel
teardown do not touch the modelled state.) -/
def _GSS_operation_destroy (w : World) (op : Operation) (gc : Bool) : World :=
  let w1 : World := { w with set := { w.set with ops := eraseOp w.set.ops op } }
  if gc then collect_generation_garbage w1 else w1

/- Service-level model: the per-client set registry used by
`handle_client_create_set`, `handle_client_disconnect` / `set_destroy`, and
the lazy-copy handlers.  Clients are identified by a numeric id; content
stores are shared by id and reference counted. -/

/-- Embeds the refcounted part of `struct SetContent` seen by `set_destroy`
and the lazy-copy handlers: the store's `latest_generation` and its
`refcount`.  (The element map itself is shared by reference and untouched
by these handlers.) -/
structure ContentRec where
  latest_generation : Nat
  refcount : Nat
deriving DecidableEq

/-- Embeds `struct Set` at the service-registry level: the owning client
(`NULL` while being torn down), the shared content store, and the
generation state. -/
structure ServiceSet where
  client : Option Nat
  content_id : Nat
  current_generation : Nat
  excluded_generations : List GenerationRange
deriving DecidableEq

/-- Embeds `struct LazyCopyRequest` (lines 76-83).  The C struct holds a
pointer to the source set; since every live set is owned by exactly one
client, the pointer is rendered as the owning client's id (tickets whose
source set dies are purged by `set_destroy`, keeping the reference valid).
-/
structure LazyCopyRequest where
  cookie : Nat
  source_client : Nat
deriving DecidableEq

/-- The service-wide registries: the set list (`sets_head`, most recently
inserted first), the content stores, the pending lazy-copy tickets
(`lazy_copy_head`, most recent first), the `lazy_copy_cookie` counter, and
a fresh-id counter for newly allocated content stores. -/
structure ServiceState where
  sets : List ServiceSet
  contents : List (Nat × ContentRec)
  lazy_copy_requests : List LazyCopyRequest
  lazy_copy_cookie : Nat
  next_content_id : Nat
deriving DecidableEq

/-- Embeds `set_get` (lines 154-163): first set owned by the client. -/
def set_get : List ServiceSet → Nat → Option ServiceSet
  | [], _ => none
  | s :: rest, c => if s.client = some c then some s else set_get rest c

/-- `GNUNET_CONTAINER_DLL_remove` of the client's set from `sets_head`. -/
def remove_client_set : List ServiceSet → Nat → List ServiceSet
  | [], _ => []
  | s :: rest, c => if s.client = some c then rest else s :: remove_client_set rest c

/-- Look up a content store by id. -/
def lookupContent : List (Nat × ContentRec) → Nat → Option ContentRec
  | [], _ => none
  | kv :: rest, cid => if kv.1 = cid then some kv.2 else lookupContent rest cid

/-- Replace a content store record. -/
def updateContent : List (Nat × ContentRec) → Nat → ContentRec → List (Nat × ContentRec)
  | [], _, _ => []
  | kv :: rest, cid, cr => if kv.1 = cid then (kv.1, cr) :: rest else kv :: updateContent rest cid cr

/-- Drop the content store's reference held by a dying set
(`content->refcount -= 1; if (0 == content->refcount) ...destroy...`,
lines 565-576): the record disappears when the last reference is gone. -/
def drop_content_ref : List (Nat × ContentRec) → Nat → List (Nat × ContentRec)
  | [], _ => []
  | kv :: rest, cid =>
      if kv.1 = cid then
        if kv.2.refcount - 1 = 0 then rest
        else (kv.1, ⟨kv.2.latest_generation, kv.2.refcount - 1⟩) :: rest
      else kv :: drop_content_ref rest cid

/-- Embeds `set_destroy` (lines 513-601) for a set identified by its owning
client: drop the content reference (`GNUNET_assert (0 != content->refcount)`
aborts on a corrupt zero refcount), unlink the set, and purge pending
lazy-copy tickets whose source set this was. -/
def set_destroy (st : ServiceState) (c : Nat) : Option ServiceState :=
  match set_get st.sets c with
  | none => some st
  | some s =>
      match lookupContent st.contents s.content_id with
      | none => none
      | some cr =>
          if cr.refcount = 0 then none
          else
            some { st with
                     sets := remove_client_set st.sets c,
                     contents := drop_content_ref st.contents s.content_id,
                     lazy_copy_requests :=
                       st.lazy_copy_requests.filter (fun lcr => !decide (lcr.source_client = c)) }

/-- Embeds `handle_client_disconnect` (lines 610-635) restricted to the set
side: the client's set, if any, is destroyed.  (The listener side is not
part of the modelled state.) -/
def handle_client_disconnect (st : ServiceState) (c : Nat) : Option ServiceState :=
  set_destroy st c

/-- Embeds `handle_client_create_set` (lines 1080-1133): a client that
already owns a set hits `GNUNET_break (0)` and is disconnected (destroying
its set); otherwise a fresh set with a fresh refcount-1 content store is
inserted at the head of the set list.  (The operation-type vtable choice
does not touch the modelled state.) -/
def handle_client_create_set (st : ServiceState) (c : Nat) : Option ServiceState :=
  match set_get st.sets c with
  | some _ => handle_client_disconnect st c
  | none =>
      some { st with
               sets := ⟨some c, st.next_content_id, 0, []⟩ :: st.sets,
               contents := (st.next_content_id, ⟨0, 1⟩) :: st.contents,
               next_content_id := st.next_content_id + 1 }

/-- Embeds `handle_client_copy_lazy_prepare` (lines 1428-1469): a client
without a set is disconnected; otherwise a ticket carrying the current
cookie is queued and the cookie counter advances. -/
def handle_client_copy_lazy_prepare (st : ServiceState) (c : Nat) : Option ServiceState :=
  match set_get st.sets c with
  | none => handle_client_disconnect st c
  | some _ =>
      some { st with
               lazy_copy_requests := ⟨st.lazy_copy_cookie, c⟩ :: st.lazy_copy_requests,
               lazy_copy_cookie := st.lazy_copy_cookie + 1 }

/-- Find a pending lazy-copy ticket by cookie. -/
def find_lazy_copy_request : List LazyCopyRequest → Nat → Option LazyCopyRequest
  | [], _ => none
  | cr :: rest, cookie =>
      if cr.cookie = cookie then some cr else find_lazy_copy_request rest cookie

/-- Consume (remove) the first ticket with the given cookie. -/
def remove_lazy_copy_request : List LazyCopyRequest → Nat → List LazyCopyRequest
  | [], _ => []
  | cr :: rest, cookie =>
      if cr.cookie = cookie then rest else cr :: remove_lazy_copy_request rest cookie

/-- Embeds `handle_client_copy_lazy_connect` (lines 1480-1574): a client
that already owns a set is disconnected (one-set-per-client check comes
first); an unknown cookie disconnects the (set-less) client; otherwise the
ticket is consumed, the new set shares the source's content store
(refcount + 1), copies the source's `current_generation` and exclusion
ranges, and `advance_generation` runs on the new set (pushing the shared
store's `latest_generation`).  The `copy_state` vtable hook only affects
operation-type internal state, which is outside the modelled fields. -/
def handle_client_copy_lazy_connect (st : ServiceState) (c : Nat) (cookie : Nat) :
    Option ServiceState :=
  match set_get st.sets c with
  | some _ => handle_client_disconnect st c
  | none =>
      match find_lazy_copy_request st.lazy_copy_requests cookie with
      | none => handle_client_disconnect st c
      | some cr =>
          let remaining := remove_lazy_copy_request st.lazy_copy_requests cookie
          match set_get st.sets cr.source_client with
          | none => none
          | some src =>
              match lookupContent st.contents src.content_id with
              | none => none
              | some crec =>
                  match advance_generation
                          ⟨src.current_generation, src.excluded_generations, 0, false, []⟩
                          crec.latest_generation with
                  | none => none
                  | some (s2, latest2) =>
                      some { st with
                               sets := ⟨some c, src.content_id, s2.current_generation,
                                        s2.excluded_generations⟩ :: st.sets,
                               contents := updateContent st.contents src.content_id
                                 ⟨latest2, crec.refcount + 1⟩,
                               lazy_copy_requests := remaining }

/- Specification-side definitions for the membership algorithm, written
from the spec's words for comparison with the code's scan ("a mutation
applies only if mutation.generation <= query_generation AND
mutation.generation is not inside any exclusion range; among applicable
mutations the last one considered determines membership"). -/

/-- A mutation applies at a query generation, per the spec's words. -/
def mutation_applies (m : MutationEvent) (query_generation : Nat)
    (excluded : List GenerationRange) : Bool :=
  decide (m.generation ≤ query_generation) && !is_excluded_generation m.generation excluded

/-- The applicable mutations, in insertion order, per the spec's words. -/
def applicable_mutations (muts : List MutationEvent) (query_generation : Nat)
    (excluded : List GenerationRange) : List MutationEvent :=
  muts.filter (fun m => mutation_applies m query_generation excluded)

/-- The added flag of the last mutation of the list, or the default when the
list is empty. -/
def last_added_flag : Bool → List MutationEvent → Bool
  | dflt, [] => dflt
  | _, m :: rest => last_added_flag m.added rest

/-- Membership per the spec: the added flag of the last applicable mutation,
not a member when no mutation applies. -/
def membership_per_spec (muts : List MutationEvent) (query_generation : Nat)
    (excluded : List GenerationRange) : Bool :=
  last_added_flag false (applicable_mutations muts query_generation excluded)

/-- The strict add/remove alternation the scan's consistency assertions
enforce, starting from presence state `s`: the next applicable mutation must
flip the state, i.e. its `added` flag must differ from `s`. -/
def alternates_from : Bool → List MutationEvent → Bool
  | _, [] => true
  | s, m :: rest => if m.added = s then false else alternates_from m.added rest

/-- The element map `e2` extends `e1` only by mutation events at
generations strictly above `g`: every entry of `e1` persists in `e2` with
its original history as an unchanged prefix. -/
def mutations_extended_above (g : Nat) (e1 e2 : List (Nat × ElementEntry)) : Prop :=
  ∀ k ee, lookupElement e1 k = some ee →
    ∃ suf, lookupElement e2 k = some ⟨ee.mutations ++ suf⟩ ∧ ∀ m ∈ suf, g < m.generation

/- Concrete scenario states used by the fork-isolation and
mutation-deferral claims. -/

/-- Set A of the fork scenario: fresh set, generation 0, no exclusions. -/
def c3_setA : Set := ⟨0, [], 0, false, []⟩

/-- Set B of the fork scenario: the lazy copy of A after its
`advance_generation` (generation 1, still no exclusion ranges because the
fast path ran). -/
def c3_setB : Set := ⟨1, [], 0, false, []⟩

/-- The shared element map at the end of the fork scenario: X (10) added to
A before the fork, Y (11) added to A after the fork, Z (12) added to B
after the fork. -/
def c3_elems_final : List (Nat × ElementEntry) :=
  [(10, ⟨[⟨0, true⟩]⟩), (11, ⟨[⟨0, true⟩]⟩), (12, ⟨[⟨1, true⟩]⟩)]

/-- Initial world of the mutation-deferral scenario: fresh set over an
empty store. -/
def c5_w0 : World := ⟨⟨0, [], 0, false, []⟩, ⟨0, [], 0, []⟩⟩

/-!  ## Helper lemmas -/

theorem mutation_scan_spec (q : Nat) (excl : List GenerationRange) :
    ∀ (muts : List MutationEvent) (s : Bool),
      mutation_scan q excl s muts =
        if alternates_from s (applicable_mutations muts q excl)
        then MembershipOutcome.ok (last_added_flag s (applicable_mutations muts q excl))
        else MembershipOutcome.assertionFailure := by
  intro muts
  induction muts with
  | nil =>
      intro s
      simp [mutation_scan, applicable_mutations, alternates_from, last_added_flag]
  | cons m rest ih =>
      intro s
      by_cases hgt : q < m.generation
      · have happ : mutation_applies m q excl = false := by
          have hn : ¬ m.generation ≤ q := by omega
          simp [mutation_applies, hn]
        have h1 : mutation_scan q excl s (m :: rest) = mutation_scan q excl s rest := by
          simp [mutation_scan, hgt]
        have h2 : applicable_mutations (m :: rest) q excl = applicable_mutations rest q excl := by
          simp [applicable_mutations, List.filter_cons, happ]
        rw [h1, h2]
        exact ih s
      · by_cases hexc : is_excluded_generation m.generation excl = true
        · have happ : mutation_applies m q excl = false := by
            simp [mutation_applies, hexc]
          have h1 : mutation_scan q excl s (m :: rest) = mutation_scan q excl s rest := by
            simp [mutation_scan, hgt, hexc]
          have h2 : applicable_mutations (m :: rest) q excl = applicable_mutations rest q excl := by
            simp [applicable_mutations, List.filter_cons, happ]
          rw [h1, h2]
          exact ih s
        · have hle : m.generation ≤ q := by omega
          have happ : mutation_applies m q excl = true := by
            simp [mutation_applies, hle, hexc]
          have h2 : applicable_mutations (m :: rest) q excl =
              m :: applicable_mutations rest q excl := by
            simp [applicable_mutations, List.filter_cons, happ]
          rw [h2]
          by_cases hsame : m.added = s
          · have h1 : mutation_scan q excl s (m :: rest) = .assertionFailure := by
              cases hs : s <;> cases hm : m.added <;>
                simp_all [mutation_scan, hgt, hexc]
            have h3 : alternates_from s (m :: applicable_mutations rest q excl) = false := by
              simp [alternates_from, hsame]
            rw [h1, h3]
            simp
          · have h1 : mutation_scan q excl s (m :: rest) =
                mutation_scan q excl m.added rest := by
              cases hs : s <;> cases hm : m.added <;>
                simp_all [mutation_scan, hgt, hexc]
            have h3 : alternates_from s (m :: applicable_mutations rest q excl) =
                alternates_from m.added (applicable_mutations rest q excl) := by
              simp [alternates_from, hsame]
            have h4 : last_added_flag s (m :: applicable_mutations rest q excl) =
                last_added_flag m.added (applicable_mutations rest q excl) := by
              simp [last_added_flag]
            rw [h1, h3, h4]
            exact ih m.added

theorem mutation_scan_skips (q : Nat) (excl : List GenerationRange) :
    ∀ (suf : List MutationEvent), (∀ m ∈ suf, q < m.generation) →
      ∀ s, mutation_scan q excl s suf = .ok s := by
  intro suf
  induction suf with
  | nil => intro _ s; simp [mutation_scan]
  | cons m rest ih =>
      intro hall s
      have hm := hall m (List.mem_cons_self m rest)
      simp only [mutation_scan, if_pos hm]
      exact ih (fun x hx => hall x (List.mem_cons_of_mem m hx)) s

theorem mutation_scan_append (q : Nat) (excl : List GenerationRange)
    (suf : List MutationEvent) (hsuf : ∀ m ∈ suf, q < m.generation) :
    ∀ (muts : List MutationEvent) (s : Bool),
      mutation_scan q excl s (muts ++ suf) = mutation_scan q excl s muts := by
  intro muts
  induction muts with
  | nil =>
      intro s
      rw [List.nil_append, mutation_scan_skips q excl suf hsuf s]
      simp [mutation_scan]
  | cons m rest ih =>
      intro s
      by_cases hgt : q < m.generation
      · simp only [List.cons_append, mutation_scan, if_pos hgt]
        exact ih s
      · by_cases hexc : is_excluded_generation m.generation excl = true
        · simp only [List.cons_append, mutation_scan, if_neg hgt, hexc, if_true]
          exact ih s
        · cases hs : s <;> cases hm : m.added <;>
            simp_all [List.cons_append, mutation_scan, hgt, hexc]

theorem is_element_of_generation_append (q : Nat) (excl : List GenerationRange)
    (muts suf : List MutationEvent)
    (hne : muts ≠ []) (hsuf : ∀ m ∈ suf, q < m.generation) :
    is_element_of_generation ⟨muts ++ suf⟩ q excl = is_element_of_generation ⟨muts⟩ q excl := by
  have hne2 : muts ++ suf ≠ [] := by
    intro hcontra
    exact hne (List.append_eq_nil.mp hcontra).1
  by_cases hexc : is_excluded_generation q excl = true
  · simp [is_element_of_generation, hne, hne2, hexc]
  · simp [is_element_of_generation, hne, hne2, hexc,
          mutation_scan_append q excl suf hsuf]

theorem lookupElement_append (es l : List (Nat × ElementEntry)) (k : Nat) (v : ElementEntry)
    (h : lookupElement es k = some v) : lookupElement (es ++ l) k = some v := by
  induction es with
  | nil => simp [lookupElement] at h
  | cons kv rest ih =>
      by_cases hk : kv.1 = k
      · simp_all [lookupElement]
      · simp_all [lookupElement]

theorem lookupElement_update_self (es : List (Nat × ElementEntry)) (k : Nat)
    (v ee : ElementEntry) (h : lookupElement es k = some v) :
    lookupElement (updateElement es k ee) k = some ee := by
  induction es with
  | nil => simp [lookupElement] at h
  | cons kv rest ih =>
      by_cases hk : kv.1 = k
      · simp [lookupElement, updateElement, hk]
      · simp_all [lookupElement, updateElement]

theorem lookupElement_update_ne (es : List (Nat × ElementEntry)) (k k2 : Nat)
    (ee : ElementEntry) (h : k2 ≠ k) :
    lookupElement (updateElement es k ee) k2 = lookupElement es k2 := by
  induction es with
  | nil => simp [lookupElement, updateElement]
  | cons kv rest ih =>
      have hkk : ¬ k = k2 := fun hh => h hh.symm
      by_cases hk : kv.1 = k
      · simp [lookupElement, updateElement, hk, hkk, h]
      · simp [lookupElement, updateElement, hk, ih]

theorem mutations_extended_above_refl (g : Nat) (e : List (Nat × ElementEntry)) :
    mutations_extended_above g e e := by
  intro k ee h
  exact ⟨[], by simpa using h, by simp⟩

theorem mutations_extended_above_trans (g : Nat) (e1 e2 e3 : List (Nat × ElementEntry))
    (h12 : mutations_extended_above g e1 e2) (h23 : mutations_extended_above g e2 e3) :
    mutations_extended_above g e1 e3 := by
  intro k ee h1
  obtain ⟨s1, hl2, hh1⟩ := h12 k ee h1
  obtain ⟨s2, hl3, hh2⟩ := h23 k ⟨ee.mutations ++ s1⟩ hl2
  refine ⟨s1 ++ s2, by simpa [List.append_assoc] using hl3, ?_⟩
  intro m hm
  rcases List.mem_append.mp hm with hmem | hmem
  · exact hh1 m hmem
  · exact hh2 m hmem

theorem execute_add_extends (set : Set) (c c2 : SetContent) (k g : Nat)
    (hg : g < set.current_generation)
    (hx : execute_add set c k = some c2) :
    mutations_extended_above g c.elements c2.elements := by
  unfold execute_add at hx
  cases hlk : lookupElement c.elements k with
  | none =>
      simp only [hlk, Option.some.injEq] at hx
      subst hx
      intro k2 ee h2
      refine ⟨[], ?_, by simp⟩
      simpa using lookupElement_append c.elements _ k2 ee h2
  | some ee0 =>
      simp only [hlk] at hx
      cases hmb : membershipReturn (_GSS_is_element_of_set ee0 set) with
      | none => simp [hmb] at hx
      | some b =>
          simp only [hmb] at hx
          cases b with
          | true =>
              simp only [Option.some.injEq] at hx
              subst hx
              exact mutations_extended_above_refl g c.elements
          | false =>
              simp only [Option.some.injEq] at hx
              subst hx
              intro k2 ee h2
              by_cases hk : k2 = k
              · subst hk
                have hsame : ee = ee0 := by
                  rw [h2] at hlk
                  exact Option.some.inj hlk
                subst hsame
                refine ⟨[⟨set.current_generation, true⟩],
                        lookupElement_update_self _ _ _ _ h2, ?_⟩
                intro m hm
                simp only [List.mem_singleton] at hm
                subst hm
                simpa using hg
              · refine ⟨[], ?_, by simp⟩
                rw [lookupElement_update_ne _ _ _ _ hk]
                simpa using h2

theorem execute_remove_extends (set : Set) (c c2 : SetContent) (k g : Nat)
    (hg : g < set.current_generation)
    (hx : execute_remove set c k = some c2) :
    mutations_extended_above g c.elements c2.elements := by
  unfold execute_remove at hx
  cases hlk : lookupElement c.elements k with
  | none =>
      simp only [hlk, Option.some.injEq] at hx
      subst hx
      exact mutations_extended_above_refl g c.elements
  | some ee0 =>
      simp only [hlk] at hx
      cases hmb : membershipReturn (_GSS_is_element_of_set ee0 set) with
      | none => simp [hmb] at hx
      | some b =>
          simp only [hmb] at hx
          cases b with
          | false =>
              simp only [Option.some.injEq] at hx
              subst hx
              exact mutations_extended_above_refl g c.elements
          | true =>
              simp only [Option.some.injEq] at hx
              subst hx
              intro k2 ee h2
              by_cases hk : k2 = k
              · subst hk
                have hsame : ee = ee0 := by
                  rw [h2] at hlk
                  exact Option.some.inj hlk
                subst hsame
                refine ⟨[⟨set.current_generation, false⟩],
                        lookupElement_update_self _ _ _ _ h2, ?_⟩
                intro m hm
                simp only [List.mem_singleton] at hm
                subst hm
                simpa using hg
              · refine ⟨[], ?_, by simp⟩
                rw [lookupElement_update_ne _ _ _ _ hk]
                simpa using h2

theorem execute_mutation_set_eq (w w2 : World) (m : MutationRequest)
    (h : execute_mutation w m = some w2) : w2.set = w.set := by
  cases m with
  | add k =>
      simp only [execute_mutation] at h
      cases hx : execute_add w.set w.content k with
      | none => rw [hx] at h; cases h
      | some c =>
          rw [hx] at h
          simp only [Option.some.injEq] at h
          subst h
          rfl
  | remove k =>
      simp only [execute_mutation] at h
      cases hx : execute_remove w.set w.content k with
      | none => rw [hx] at h; cases h
      | some c =>
          rw [hx] at h
          simp only [Option.some.injEq] at h
          subst h
          rfl

theorem execute_mutation_extends (w w2 : World) (m : MutationRequest) (g : Nat)
    (hg : g < w.set.current_generation)
    (h : execute_mutation w m = some w2) :
    mutations_extended_above g w.content.elements w2.content.elements := by
  cases m with
  | add k =>
      simp only [execute_mutation] at h
      cases hx : execute_add w.set w.content k with
      | none => rw [hx] at h; cases h
      | some c =>
          rw [hx] at h
          simp only [Option.some.injEq] at h
          subst h
          exact execute_add_extends w.set w.content c k g hg hx
  | remove k =>
      simp only [execute_mutation] at h
      cases hx : execute_remove w.set w.content k with
      | none => rw [hx] at h; cases h
      | some c =>
          rw [hx] at h
          simp only [Option.some.injEq] at h
          subst h
          exact execute_remove_extends w.set w.content c k g hg hx

theorem execute_mutations_set_eq :
    ∀ (ms : List MutationRequest) (w wn : World),
      execute_mutations w ms = some wn → wn.set = w.set := by
  intro ms
  induction ms with
  | nil =>
      intro w wn h
      simp only [execute_mutations, Option.some.injEq] at h
      rw [← h]
  | cons m rest ih =>
      intro w wn h
      simp only [execute_mutations] at h
      cases hx : execute_mutation w m with
      | none => rw [hx] at h; cases h
      | some w2 =>
          rw [hx] at h
          exact (ih w2 wn h).trans (execute_mutation_set_eq w w2 m hx)

theorem execute_mutations_extends (g : Nat) :
    ∀ (ms : List MutationRequest) (w wn : World),
      g < w.set.current_generation →
      execute_mutations w ms = some wn →
      mutations_extended_above g w.content.elements wn.content.elements := by
  intro ms
  induction ms with
  | nil =>
      intro w wn _ h
      simp only [execute_mutations, Option.some.injEq] at h
      rw [← h]
      exact mutations_extended_above_refl g w.content.elements
  | cons m rest ih =>
      intro w wn hg h
      simp only [execute_mutations] at h
      cases hx : execute_mutation w m with
      | none => rw [hx] at h; cases h
      | some w2 =>
          rw [hx] at h
          have hg2 : g < w2.set.current_generation := by
            rw [execute_mutation_set_eq w w2 m hx]
            exact hg
          exact mutations_extended_above_trans g _ _ _
            (execute_mutation_extends w w2 m g hg hx) (ih w2 wn hg2 h)

theorem advance_generation_lt (s s2 : Set) (l l2 : Nat)
    (h : advance_generation s l = some (s2, l2)) :
    s.current_generation < s2.current_generation := by
  unfold advance_generation at h
  by_cases he : s.current_generation = l
  · simp only [he, if_true, if_pos, Option.some.injEq, Prod.mk.injEq] at h
    rw [← h.1]
    simp [he]
  · rw [if_neg he] at h
    by_cases hlt : s.current_generation < l
    · rw [if_pos hlt] at h
      simp only [Option.some.injEq, Prod.mk.injEq] at h
      rw [← h.1]
      simp
      omega
    · rw [if_neg hlt] at h
      cases h

theorem create_operation_facts (w w1 : World) (h : create_operation w = some w1) :
    w.set.current_generation < w1.set.current_generation ∧
    w1.content.elements = w.content.elements := by
  unfold create_operation at h
  cases hx : advance_generation w.set w.content.latest_generation with
  | none => rw [hx] at h; cases h
  | some p =>
      obtain ⟨s2, l2⟩ := p
      rw [hx] at h
      simp only [Option.some.injEq] at h
      subst h
      exact ⟨advance_generation_lt w.set s2 w.content.latest_generation l2 hx, rfl⟩

theorem garbage_filter_id (gc : GarbageContext) (es : List (Nat × ElementEntry)) :
    es.filter (fun kv => garbage_collect_cb gc kv.1 kv.2) = es := by
  induction es with
  | nil => rfl
  | cons kv rest ih => simp [garbage_collect_cb, List.filter_cons, ih]

theorem collect_generation_garbage_eq (w : World) : collect_generation_garbage w = w := by
  unfold collect_generation_garbage
  simp [garbage_filter_id]

theorem flush_if_idle_set_eq (w w2 : World) (h : flush_if_idle w = some w2) :
    w2.set = w.set := by
  unfold flush_if_idle at h
  by_cases hc : w.content.iterator_count = 0
  · rw [if_pos hc] at h
    exact execute_mutations_set_eq w.content.pending_mutations
      { w with content := { w.content with pending_mutations := [] } } w2 h
  · rw [if_neg hc] at h
    simp only [Option.some.injEq] at h
    rw [← h]

theorem applyEvent_mono (w w2 : World) (e : Event) (h : applyEvent w e = some w2) :
    w.set.current_generation ≤ w2.set.current_generation := by
  cases e with
  | clientMutation m =>
      simp only [applyEvent, handle_client_mutation] at h
      by_cases hc : w.content.iterator_count ≠ 0
      · rw [if_pos hc] at h
        simp only [Option.some.injEq] at h
        subst h
        exact Nat.le_refl _
      · rw [if_neg hc] at h
        rw [execute_mutation_set_eq w w2 m h]
  | clientEvaluate =>
      simp only [applyEvent] at h
      exact Nat.le_of_lt (create_operation_facts w w2 h).1
  | clientAccept =>
      simp only [applyEvent] at h
      exact Nat.le_of_lt (create_operation_facts w w2 h).1
  | iterStart =>
      simp only [applyEvent] at h
      cases hit : w.set.iterating with
      | true => simp [hit] at h
      | false =>
          simp only [hit, Bool.false_eq_true, if_false, Option.some.injEq] at h
          subst h
          exact Nat.le_refl _
  | iterFinish =>
      simp only [applyEvent] at h
      cases hit : w.set.iterating with
      | false => simp [hit] at h
      | true =>
          simp only [hit, Bool.not_true, Bool.false_eq_true, if_false] at h
          by_cases hc : w.content.iterator_count = 0
          · rw [if_pos hc] at h
            cases h
          · rw [if_neg hc] at h
            rw [flush_if_idle_set_eq _ _ h]
  | copyLazyPrepare =>
      simp only [applyEvent, Option.some.injEq] at h
      subst h
      exact Nat.le_refl _
  | copyLazyConnectFork =>
      simp only [applyEvent] at h
      cases hx : advance_generation
          ⟨w.set.current_generation, w.set.excluded_generations, 0, false, []⟩
          w.content.latest_generation with
      | none => rw [hx] at h; cases h
      | some p =>
          obtain ⟨s2, l2⟩ := p
          rw [hx] at h
          simp only [Option.some.injEq] at h
          subst h
          exact Nat.le_refl _

/-!  ## Claim theorems -/

/-- C1 (counterexample): the claim promises that `is_element_of_generation`
returns the added flag of the last applicable mutation for EVERY element
entry with a non-empty mutation list; but on an entry whose applicable
mutations do not alternate (two add events), the code hits the fatal
consistency assertion and never returns, while the last applicable
mutation's flag is `true`. -/
theorem c1_counterexample :
    is_element_of_generation ⟨[⟨0, true⟩, ⟨0, true⟩]⟩ 1 [] =
        MembershipOutcome.assertionFailure ∧
    membership_per_spec [⟨0, true⟩, ⟨0, true⟩] 1 [] = true ∧
    MembershipOutcome.assertionFailure ≠ MembershipOutcome.ok true := by
  decide

/-- C1 (amended): for every element entry with a non-empty mutation list and
every query generation not inside any exclusion range,
`is_element_of_generation` scans the mutation list in insertion order,
skipping mutations whose generation is above the query generation or inside
an exclusion range; when the applicable mutations strictly alternate
added/removed (starting from not-present) it returns the added flag of the
last applicable mutation (not a member when no mutation applies), and
otherwise it aborts with a fatal consistency assertion. -/
theorem c1_scan_characterization (ee : ElementEntry) (q : Nat)
    (excl : List GenerationRange)
    (hne : ee.mutations ≠ []) (hexcl : is_excluded_generation q excl = false) :
    is_element_of_generation ee q excl =
      if alternates_from false (applicable_mutations ee.mutations q excl)
      then MembershipOutcome.ok (membership_per_spec ee.mutations q excl)
      else MembershipOutcome.assertionFailure := by
  unfold is_element_of_generation membership_per_spec
  rw [if_neg hne, hexcl]
  simp only [Bool.false_eq_true, if_false]
  exact mutation_scan_spec q excl ee.mutations false

/-- Witness for C1 (amended) at a concrete alternating history. -/
theorem c1_scan_characterization_witness :
    is_element_of_generation ⟨[⟨0, true⟩, ⟨1, false⟩]⟩ 2 [] =
      if alternates_from false (applicable_mutations [⟨0, true⟩, ⟨1, false⟩] 2 [])
      then MembershipOutcome.ok (membership_per_spec [⟨0, true⟩, ⟨1, false⟩] 2 [])
      else MembershipOutcome.assertionFailure :=
  c1_scan_characterization ⟨[⟨0, true⟩, ⟨1, false⟩]⟩ 2 [] (by decide) (by decide)

/-- C2: an operation pinned at creation time to `generation_created`
(the set's current generation, after which `advance_generation` runs) keeps
reporting the same membership through `_GSS_is_element_of_operation` for
every element whose whole mutation history was recorded before the
operation was created, no matter which `execute_add`/`execute_remove`
mutations run on the operation's set afterwards. -/
theorem c2_operation_pinning (w0 w1 wn : World) (ms : List MutationRequest)
    (k : Nat) (ee een : ElementEntry)
    (hcreate : create_operation w0 = some w1)
    (hms : execute_mutations w1 ms = some wn)
    (hee : lookupElement w1.content.elements k = some ee)
    (heen : lookupElement wn.content.elements k = some een)
    (hne : ee.mutations ≠ []) :
    _GSS_is_element_of_operation een ⟨w0.set.current_generation⟩ wn.set =
      _GSS_is_element_of_operation ee ⟨w0.set.current_generation⟩ w1.set := by
  obtain ⟨hlt, _⟩ := create_operation_facts w0 w1 hcreate
  have hset : wn.set = w1.set := execute_mutations_set_eq ms w1 wn hms
  have hext := execute_mutations_extends w0.set.current_generation ms w1 wn hlt hms
  obtain ⟨suf, hlook, hhigh⟩ := hext k ee hee
  have heq : een = ⟨ee.mutations ++ suf⟩ := by
    rw [heen] at hlook
    exact Option.some.inj hlook
  unfold _GSS_is_element_of_operation
  rw [hset, heq]
  exact is_element_of_generation_append w0.set.current_generation
    w1.set.excluded_generations ee.mutations suf hne hhigh

/-- Witness for C2: pin an operation at generation 0 over a set holding
element 1, then remove element 1; the operation still sees it. -/
theorem c2_operation_pinning_witness :
    _GSS_is_element_of_operation ⟨[⟨0, true⟩, ⟨1, false⟩]⟩ ⟨0⟩
        (⟨1, [], 0, false, [⟨0⟩]⟩ : Set) =
      _GSS_is_element_of_operation ⟨[⟨0, true⟩]⟩ ⟨0⟩ (⟨1, [], 0, false, [⟨0⟩]⟩ : Set) :=
  c2_operation_pinning
    ⟨⟨0, [], 0, false, []⟩, ⟨0, [(1, ⟨[⟨0, true⟩]⟩)], 0, []⟩⟩
    ⟨⟨1, [], 0, false, [⟨0⟩]⟩, ⟨1, [(1, ⟨[⟨0, true⟩]⟩)], 0, []⟩⟩
    ⟨⟨1, [], 0, false, [⟨0⟩]⟩, ⟨1, [(1, ⟨[⟨0, true⟩, ⟨1, false⟩]⟩)], 0, []⟩⟩
    [.remove 1] 1 ⟨[⟨0, true⟩]⟩ ⟨[⟨0, true⟩, ⟨1, false⟩]⟩
    (by decide) (by decide) (by decide) (by decide) (by decide)

/-- C3: the claimed fork-isolation scenario fails on the code.  Create set A
(generation 0), add X (hash 10); fork B via lazy copy (B copies A's
generation state and advances to generation 1, the shared store's latest
becomes 1); add Y (hash 11) to A only and Z (hash 12) to B only.  Then X is
a member of A and of B, Z is a member of B and not of A — but Y, added only
to A AFTER the fork, is ALSO a member of B, because A still sits at the
fork-time generation 0, Y's mutation event is tagged 0 <= 1, and B carries
no exclusion range for it.  This contradicts the claim (and the source's
own comment that mutations of the source and the clone are independent
after `advance_generation`). -/
theorem c3_fork_leak :
    execute_add c3_setA ⟨0, [], 0, []⟩ 10 =
        some ⟨0, [(10, ⟨[⟨0, true⟩]⟩)], 0, []⟩ ∧
    advance_generation ⟨c3_setA.current_generation, c3_setA.excluded_generations,
        0, false, []⟩ 0 = some (c3_setB, 1) ∧
    execute_add c3_setA ⟨1, [(10, ⟨[⟨0, true⟩]⟩)], 0, []⟩ 11 =
        some ⟨1, [(10, ⟨[⟨0, true⟩]⟩), (11, ⟨[⟨0, true⟩]⟩)], 0, []⟩ ∧
    execute_add c3_setB ⟨1, [(10, ⟨[⟨0, true⟩]⟩), (11, ⟨[⟨0, true⟩]⟩)], 0, []⟩ 12 =
        some ⟨1, c3_elems_final, 0, []⟩ ∧
    (lookupElement c3_elems_final 10).map (fun ee => _GSS_is_element_of_set ee c3_setA) =
        some (MembershipOutcome.ok true) ∧
    (lookupElement c3_elems_final 10).map (fun ee => _GSS_is_element_of_set ee c3_setB) =
        some (MembershipOutcome.ok true) ∧
    (lookupElement c3_elems_final 11).map (fun ee => _GSS_is_element_of_set ee c3_setA) =
        some (MembershipOutcome.ok true) ∧
    (lookupElement c3_elems_final 12).map (fun ee => _GSS_is_element_of_set ee c3_setB) =
        some (MembershipOutcome.ok true) ∧
    (lookupElement c3_elems_final 12).map (fun ee => _GSS_is_element_of_set ee c3_setA) =
        some (MembershipOutcome.ok false) ∧
    (lookupElement c3_elems_final 11).map (fun ee => _GSS_is_element_of_set ee c3_setB) =
        some (MembershipOutcome.ok true) := by
  decide

/-- C4: `advance_generation` increments both the set's current generation
and the store's latest generation by one (appending no exclusion range)
when they agree, and otherwise (set strictly behind) appends the exclusion
range `[current+1, latest+1)` and sets both to `latest+1`. -/
theorem c4_advance_generation (s : Set) (latest : Nat) :
    (s.current_generation = latest →
       advance_generation s latest =
         some ({ s with current_generation := s.current_generation + 1 }, latest + 1)) ∧
    (s.current_generation < latest →
       advance_generation s latest =
         some ({ s with
                   current_generation := latest + 1,
                   excluded_generations := s.excluded_generations ++
                     [⟨s.current_generation + 1, latest + 1⟩] },
               latest + 1)) := by
  constructor
  · intro he
    unfold advance_generation
    rw [if_pos he]
  · intro hlt
    have hne : s.current_generation ≠ latest := Nat.ne_of_lt hlt
    unfold advance_generation
    rw [if_neg hne, if_pos hlt]

/-- Witness for C4: both branches at concrete generation values. -/
theorem c4_advance_generation_witness :
    advance_generation (⟨0, [], 0, false, []⟩ : Set) 0 =
        some (⟨1, [], 0, false, []⟩, 1) ∧
    advance_generation (⟨1, [], 0, false, []⟩ : Set) 3 =
        some (⟨4, [⟨2, 4⟩], 0, false, []⟩, 4) := by
  refine ⟨?_, ?_⟩
  · have h := (c4_advance_generation (⟨0, [], 0, false, []⟩ : Set) 0).1 (by decide)
    simpa using h
  · have h := (c4_advance_generation (⟨1, [], 0, false, []⟩ : Set) 3).2 (by decide)
    simpa using h

/-- C5: mutation requests arriving during an active iteration are indeed
queued and flushed only when the last iteration finishes, but the code
queues with a head insert and flushes from the head, so the deferred
mutations run in REVERSE arrival order.  Concretely: with an iteration
active, queue Add(7) then Remove(7); the queue reads [Remove 7, Add 7]; on
iteration end the flush runs Remove first (a no-op on the absent element)
then Add, leaving 7 a member — whereas executing the same requests in
arrival order leaves 7 not a member. -/
theorem c5_lifo_flush :
    (applyEvents c5_w0
        [.iterStart, .clientMutation (.add 7), .clientMutation (.remove 7)]).map
        (fun w => w.content.pending_mutations) =
      some [.remove 7, .add 7] ∧
    (applyEvents c5_w0
        [.iterStart, .clientMutation (.add 7), .clientMutation (.remove 7),
         .iterFinish]).map
        (fun w => (lookupElement w.content.elements 7).map
          (fun ee => _GSS_is_element_of_set ee w.set)) =
      some (some (MembershipOutcome.ok true)) ∧
    (execute_mutations c5_w0 [.add 7, .remove 7]).map
        (fun w => (lookupElement w.content.elements 7).map
          (fun ee => _GSS_is_element_of_set ee w.set)) =
      some (some (MembershipOutcome.ok false)) := by
  decide

/-- C6 (counterexample): querying a generation inside an exclusion range is
NOT a fatal assertion: the code takes the non-fatal `GNUNET_break (0)` path
and returns `GNUNET_NO`, which the caller receives as an ordinary
"not a member" answer. -/
theorem c6_counterexample :
    is_element_of_generation ⟨[⟨0, true⟩]⟩ 2 [⟨2, 3⟩] = MembershipOutcome.brokenNo ∧
    MembershipOutcome.brokenNo ≠ MembershipOutcome.assertionFailure ∧
    membershipReturn (is_element_of_generation ⟨[⟨0, true⟩]⟩ 2 [⟨2, 3⟩]) = some false := by
  decide

/-- C6 (amended): for every element with a recorded mutation history,
calling `is_element_of_generation` with a query generation inside one of
the exclusion ranges is flagged as a caller error by a NON-fatal defensive
break and is reported to the caller as not-a-member (`GNUNET_NO`); the
fatal assertion is reserved for mutation-alternation corruption. -/
theorem c6_excluded_query_breaks (ee : ElementEntry) (q : Nat)
    (excl : List GenerationRange)
    (hne : ee.mutations ≠ []) (hexcl : is_excluded_generation q excl = true) :
    is_element_of_generation ee q excl = MembershipOutcome.brokenNo := by
  unfold is_element_of_generation
  rw [if_neg hne, if_pos hexcl]

/-- Witness for C6 (amended) at a concrete excluded query generation. -/
theorem c6_excluded_query_breaks_witness :
    is_element_of_generation ⟨[⟨0, true⟩]⟩ 2 [⟨2, 3⟩] = MembershipOutcome.brokenNo :=
  c6_excluded_query_breaks ⟨[⟨0, true⟩]⟩ 2 [⟨2, 3⟩] (by decide) (by decide)

/-- C7 (counterexample): a second CreateSet from a client that already owns
a set does NOT leave the existing set untouched: the client is disconnected
and the disconnect destroys its set (here the set list becomes empty and
the content store, whose refcount drops to zero, is freed). -/
theorem c7_counterexample :
    handle_client_create_set ⟨[⟨some 1, 0, 5, []⟩], [(0, ⟨5, 1⟩)], [], 1, 1⟩ 1 =
        some ⟨[], [], [], 1, 1⟩ ∧
    set_get [⟨some 1, 0, 5, []⟩] 1 = some ⟨some 1, 0, 5, []⟩ ∧
    set_get ([] : List ServiceSet) 1 = none := by
  decide

/-- C7 (amended): a CreateSet or CopyLazyConnect request from a client that
already owns a set never creates a new set, but instead of failing with a
DuplicateSet error and leaving the set untouched, the service treats it as
a client protocol violation and disconnects the client, destroying the
client's existing set (it is removed from the service's set list). -/
theorem c7_duplicate_set_destroys (st : ServiceState) (c : Nat) (s : ServiceSet)
    (cr : ContentRec)
    (hs : set_get st.sets c = some s)
    (hc : lookupContent st.contents s.content_id = some cr)
    (hrc : cr.refcount ≠ 0)
    (huniq : set_get (remove_client_set st.sets c) c = none) :
    (∃ st2, handle_client_create_set st c = some st2 ∧
       st2.sets = remove_client_set st.sets c ∧ set_get st2.sets c = none) ∧
    (∀ cookie, ∃ st2, handle_client_copy_lazy_connect st c cookie = some st2 ∧
       st2.sets = remove_client_set st.sets c ∧ set_get st2.sets c = none) := by
  have hdest : handle_client_disconnect st c =
      some { st with
               sets := remove_client_set st.sets c,
               contents := drop_content_ref st.contents s.content_id,
               lazy_copy_requests :=
                 st.lazy_copy_requests.filter (fun lcr => !decide (lcr.source_client = c)) } := by
    unfold handle_client_disconnect set_destroy
    rw [hs]
    simp only [hc]
    rw [if_neg hrc]
  constructor
  · refine ⟨{ st with
                sets := remove_client_set st.sets c,
                contents := drop_content_ref st.contents s.content_id,
                lazy_copy_requests :=
                  st.lazy_copy_requests.filter
                    (fun lcr => !decide (lcr.source_client = c)) },
            ?_, rfl, huniq⟩
    unfold handle_client_create_set
    rw [hs]
    exact hdest
  · intro cookie
    refine ⟨{ st with
                sets := remove_client_set st.sets c,
                contents := drop_content_ref st.contents s.content_id,
                lazy_copy_requests :=
                  st.lazy_copy_requests.filter
                    (fun lcr => !decide (lcr.source_client = c)) },
            ?_, rfl, huniq⟩
    unfold handle_client_copy_lazy_connect
    rw [hs]
    exact hdest

/-- Witness for C7 (amended) at a concrete one-client state. -/
theorem c7_duplicate_set_destroys_witness :
    (∃ st2, handle_client_create_set ⟨[⟨some 1, 0, 5, []⟩], [(0, ⟨5, 1⟩)], [], 1, 1⟩ 1 =
        some st2 ∧
       st2.sets = remove_client_set [⟨some 1, 0, 5, []⟩] 1 ∧ set_get st2.sets 1 = none) ∧
    (∀ cookie, ∃ st2,
       handle_client_copy_lazy_connect ⟨[⟨some 1, 0, 5, []⟩], [(0, ⟨5, 1⟩)], [], 1, 1⟩
           1 cookie = some st2 ∧
       st2.sets = remove_client_set [⟨some 1, 0, 5, []⟩] 1 ∧ set_get st2.sets 1 = none) :=
  c7_duplicate_set_destroys ⟨[⟨some 1, 0, 5, []⟩], [(0, ⟨5, 1⟩)], [], 1, 1⟩ 1
    ⟨some 1, 0, 5, []⟩ ⟨5, 1⟩ (by decide) (by decide) (by decide) (by decide)

/-- C8: across every sequence of service events (client mutations, Evaluate,
Accept, iteration start/finish, lazy-copy prepare and connect), a set's
`current_generation` never decreases. -/
theorem c8_generation_monotone (w wn : World) (es : List Event)
    (h : applyEvents w es = some wn) :
    w.set.current_generation ≤ wn.set.current_generation := by
  induction es generalizing w with
  | nil =>
      simp only [applyEvents, Option.some.injEq] at h
      rw [h]
  | cons e rest ih =>
      simp only [applyEvents] at h
      cases hx : applyEvent w e with
      | none => rw [hx] at h; cases h
      | some w2 =>
          rw [hx] at h
          exact Nat.le_trans (applyEvent_mono w w2 e hx) (ih w2 h)

/-- Witness for C8 on a concrete trace (mutation, evaluate, iteration). -/
theorem c8_generation_monotone_witness :
    (⟨⟨0, [], 0, false, []⟩, ⟨0, [], 0, []⟩⟩ : World).set.current_generation ≤
      (⟨⟨1, [], 0, false, [⟨0⟩]⟩,
        ⟨1, [(7, ⟨[⟨0, true⟩]⟩)], 0, []⟩⟩ : World).set.current_generation :=
  c8_generation_monotone _ _ [.clientMutation (.add 7), .clientEvaluate] (by decide)

/-- C9 (counterexample): executing an ordinary client mutation does NOT
advance the set's current generation: adding element 7 to a fresh set
leaves `current_generation` at 0, not 1. -/
theorem c9_counterexample :
    handle_client_mutation ⟨⟨0, [], 0, false, []⟩, ⟨0, [], 0, []⟩⟩ (.add 7) =
        some ⟨⟨0, [], 0, false, []⟩, ⟨0, [(7, ⟨[⟨0, true⟩]⟩)], 0, []⟩⟩ ∧
    (⟨⟨0, [], 0, false, []⟩,
      ⟨0, [(7, ⟨[⟨0, true⟩]⟩)], 0, []⟩⟩ : World).set.current_generation ≠ 0 + 1 := by
  decide

/-- C9 (amended): ordinary client mutations never change
`current_generation`; the generation changes only through
`advance_generation`, invoked when an operation is created (Evaluate or
Accept) or when a lazy copy is connected — by one when the set matches the
store's latest generation, else jumping to `latest+1` while absorbing the
exclusion range `[current+1, latest+1)`. -/
theorem c9_mutation_preserves_generation :
    (∀ (w : World) (m : MutationRequest) (w2 : World),
        handle_client_mutation w m = some w2 →
        w2.set.current_generation = w.set.current_generation) ∧
    (∀ (w w2 : World), create_operation w = some w2 →
        (w.set.current_generation = w.content.latest_generation ∧
           w2.set.current_generation = w.set.current_generation + 1 ∧
           w2.set.excluded_generations = w.set.excluded_generations) ∨
        (w.set.current_generation < w.content.latest_generation ∧
           w2.set.current_generation = w.content.latest_generation + 1 ∧
           w2.set.excluded_generations = w.set.excluded_generations ++
             [⟨w.set.current_generation + 1, w.content.latest_generation + 1⟩])) := by
  constructor
  · intro w m w2 h
    simp only [handle_client_mutation] at h
    by_cases hc : w.content.iterator_count ≠ 0
    · rw [if_pos hc] at h
      simp only [Option.some.injEq] at h
      subst h
      rfl
    · rw [if_neg hc] at h
      rw [execute_mutation_set_eq w w2 m h]
  · intro w w2 h
    unfold create_operation advance_generation at h
    by_cases he : w.set.current_generation = w.content.latest_generation
    · left
      rw [if_pos he] at h
      simp only [Option.some.injEq] at h
      subst h
      exact ⟨he, rfl, rfl⟩
    · rw [if_neg he] at h
      by_cases hlt : w.set.current_generation < w.content.latest_generation
      · right
        rw [if_pos hlt] at h
        simp only [Option.some.injEq] at h
        subst h
        exact ⟨hlt, rfl, rfl⟩
      · rw [if_neg hlt] at h
        cases h

/-- Witness for C9 (amended): a concrete mutation that leaves the
generation unchanged. -/
theorem c9_mutation_preserves_generation_witness :
    (⟨⟨0, [], 0, false, []⟩,
      ⟨0, [(7, ⟨[⟨0, true⟩]⟩)], 0, []⟩⟩ : World).set.current_generation =
      (⟨⟨0, [], 0, false, []⟩, ⟨0, [], 0, []⟩⟩ : World).set.current_generation :=
  c9_mutation_preserves_generation.1
    ⟨⟨0, [], 0, false, []⟩, ⟨0, [], 0, []⟩⟩ (.add 7)
    ⟨⟨0, [], 0, false, []⟩, ⟨0, [(7, ⟨[⟨0, true⟩]⟩)], 0, []⟩⟩ (by decide)

/-- C10: garbage collection after destroying an operation with gc enabled
(`_GSS_operation_destroy(op, GNUNET_YES)` running
`collect_generation_garbage`) never removes an element entry or mutation
event: in this revision the pruning body of `garbage_collect_cb` is
commented out, so for every set with a live bound operation, every element
reports the same membership at that operation's `generation_created` before
and after collection. -/
theorem c10_gc_frame (w : World) (opd op : Operation) (k : Nat) (ee : ElementEntry)
    (hlive : op ∈ (_GSS_operation_destroy w opd true).set.ops)
    (hee : lookupElement w.content.elements k = some ee) :
    lookupElement ((_GSS_operation_destroy w opd true).content.elements) k = some ee ∧
    _GSS_is_element_of_operation ee op ((_GSS_operation_destroy w opd true).set) =
      _GSS_is_element_of_operation ee op w.set := by
  unfold _GSS_operation_destroy
  rw [if_pos rfl, collect_generation_garbage_eq]
  exact ⟨hee, rfl⟩

/-- Witness for C10: destroy one of two operations with gc enabled; the
remaining live operation still sees element 5. -/
theorem c10_gc_frame_witness :
    lookupElement ((_GSS_operation_destroy
        ⟨⟨2, [], 0, false, [⟨0⟩, ⟨1⟩]⟩, ⟨2, [(5, ⟨[⟨0, true⟩]⟩)], 0, []⟩⟩
        ⟨1⟩ true).content.elements) 5 = some ⟨[⟨0, true⟩]⟩ ∧
    _GSS_is_element_of_operation ⟨[⟨0, true⟩]⟩ ⟨0⟩
        ((_GSS_operation_destroy
          ⟨⟨2, [], 0, false, [⟨0⟩, ⟨1⟩]⟩, ⟨2, [(5, ⟨[⟨0, true⟩]⟩)], 0, []⟩⟩
          ⟨1⟩ true).set) =
      _GSS_is_element_of_operation ⟨[⟨0, true⟩]⟩ ⟨0⟩
        (⟨2, [], 0, false, [⟨0⟩, ⟨1⟩]⟩ : Set) :=
  c10_gc_frame
    ⟨⟨2, [], 0, false, [⟨0⟩, ⟨1⟩]⟩, ⟨2, [(5, ⟨[⟨0, true⟩]⟩)], 0, []⟩⟩
    ⟨1⟩ ⟨0⟩ 5 ⟨[⟨0, true⟩]⟩ (by decide) (by decide)

end GSS
